import Mathlib

/-!
Verification of the game-orchestration core of the AI-Draw-Guess-Battle
repository: the event bus (`src/game/core/event_bus.py`), the game state
machine (`src/game/core/game_state.py`), the round manager
(`src/game/core/round_manager.py`), the scoring system
(`src/game/core/scoring_system.py`) and the value models they operate on
(`src/game/data/models/player.py`, `word.py`, `game_data.py`,
`src/game/data/repositories/word_repository.py`,
`src/game/utils/constants.py`).

The Python classes are embedded shallowly: each stateful manager becomes a
Lean structure holding exactly the instance fields the verified operations
read or write, and each method becomes a pure function from the old state to
the returned value, the new state and the list of events it publishes on the
bus.  Wall-clock readings (`time.time()`) are threaded in as an explicit
`now : Rat` argument, and `random.choice` is threaded in as an explicit
selection function `choose : List Word → Option Word` (the repository calls
it only on non-empty lists; theorems that depend on the selection assume
only that `choose` picks a member of its argument).  Python callback objects
(event listeners, timer callbacks) are represented by opaque identifiers
together with the integer priority attribute the bus reads, and their
raising or not raising an exception is an explicit behaviour function.
-/

namespace DrawGuess

/-! ## Constants (src/game/utils/constants.py) -/

def MAX_ROUNDS : Nat := 3

def DRAWING_TIME_LIMIT : Nat := 90

def BASE_SCORE_FOR_DRAWER : Int := 20

def BASE_SCORE_FOR_GUESSER : Int := 30

/-- TIME_BONUS_FACTOR = 1 in constants.py (one point per remaining second). -/
def TIME_BONUS_FACTOR : Rat := 1

/-- SPEED_BONUS_THRESHOLD = 0.33 in constants.py. -/
def SPEED_BONUS_THRESHOLD : Rat := 33 / 100

def SPEED_BONUS_POINTS : Int := 10

/-! ## Player model (src/game/data/models/player.py)

Python `Player` is a `@dataclass`, so `==` compares all fields; the derived
`DecidableEq` mirrors that. -/

inductive PlayerType
  | human
  | ai
deriving DecidableEq, Repr

structure Player where
  player_id : String
  name : String
  player_type : PlayerType
  score : Int := 0
  is_drawing : Bool := false
  has_guessed : Bool := false
deriving DecidableEq, Repr

/-- Player.set_drawing_state: sets the drawing flag and, when the player
becomes the drawer, resets the guessed flag. -/
def Player.set_drawing_state (p : Player) (d : Bool) : Player :=
  { p with is_drawing := d, has_guessed := if d then false else p.has_guessed }

/-- Player.set_guessed_state. -/
def Player.set_guessed_state (p : Player) (g : Bool) : Player :=
  { p with has_guessed := g }

/-! ## Word model (src/game/data/models/word.py)

Python `Word` is a `@dataclass`; `__post_init__` trims the stored strings,
which is invisible to the operations verified here (they only compare the
stored `text`). -/

structure Word where
  text : String
  category : String
  difficulty : String
  hint : String
  examples : List String := []
  word_id : Option String := none
deriving DecidableEq, Repr

/-- Word.get_display_text returns the word text itself (used for the state
context payload). -/
def Word.get_display_text (w : Word) : String := w.text

/-! ## Event bus (src/game/core/event_bus.py) -/

inductive EventType
  | game_start
  | game_end
  | game_pause
  | game_resume
  | game_state_changed
  | game_reset
  | round_start
  | round_end
  | drawing_start
  | drawing_update
  | drawing_end
  | guess_submitted
  | guess_correct
  | guess_incorrect
  | player_join
  | player_leave
  | player_ready
  | score_update
  | ai_thinking_start
  | ai_thinking_end
  | ai_response
  | ui_button_clicked
  | ui_mode_changed
  | system_error
  | config_changed
deriving DecidableEq, Repr

/-! ## Game states (src/game/core/game_state.py) -/

inductive GameState
  | waiting
  | drawing
  | guessing
  | scoring
  | game_over
deriving DecidableEq, Repr

/-- GameState.value: the string value of each enum member (the
GAME_STATE_* constants). -/
def GameState.value : GameState → String
  | .waiting => "waiting"
  | .drawing => "drawing"
  | .guessing => "guessing"
  | .scoring => "scoring"
  | .game_over => "game_over"

/-- VALID_STATE_TRANSITIONS: the transition table of game_state.py, as the
list of listed successors of each state. -/
def VALID_STATE_TRANSITIONS : GameState → List GameState
  | .waiting => [.drawing]
  | .drawing => [.guessing]
  | .guessing => [.scoring]
  | .scoring => [.drawing, .game_over]
  | .game_over => [.waiting]

/-- GameStateContext (a dataclass; the free-form `extra_data` dict is kept
as a string association list, it is never read by the verified operations). -/
structure GameStateContext where
  current_round : Nat := 0
  total_rounds : Nat := 3
  current_drawer : Option String := none
  current_word : Option String := none
  extra_data : List (String × String) := []
deriving DecidableEq, Repr

/-- Event payloads, one constructor per publish site of the core, carrying
the fields the source puts into the event data dict. -/
inductive EventPayload
  | stateChanged (from_state : String) (to_state : String) (context : GameStateContext)
  | gameReset (from_state : Option String) (to_state : String)
  | roundStart (round_number : Nat) (drawer : String) (word : String)
      (word_hint : String) (time_limit : Nat)
  | roundEnd (round_number : Nat) (drawer : Option String) (word : Option String)
      (correct_guesses : List String) (duration : Option Rat)
  | guessSubmitted (player : String) (guess : String) (is_correct : Bool)
  | guessCorrect (player : String) (word : String) (guess_time : Option Rat)
  | guessIncorrect (player : String) (guess : String)
  | scoreUpdate (player_id : String) (player_name : String) (score : Int)
      (total_score : Int) (round_number : Nat) (score_type : String)
deriving DecidableEq, Repr

/-- GameEvent: event type plus data payload (the wall-clock timestamp and
the random uuid of the source are not modelled). -/
structure GameEvent where
  event_type : EventType
  payload : EventPayload
deriving DecidableEq, Repr

/-! ## Game state manager (src/game/core/game_state.py)

The state-change callbacks registered on the manager do not mutate the
manager itself; they are left out of the state record, and the events a
method publishes on the bus are returned alongside the new state. -/

structure GameStateManagerState where
  current_state : GameState := .waiting
  previous_state : Option GameState := none
  state_context : GameStateContext := {}
  state_history : List GameState := [.waiting]
deriving DecidableEq, Repr

/-- GameStateManager.can_transition_to. -/
def can_transition_to (st : GameStateManagerState) (target_state : GameState) : Bool :=
  if st.current_state = target_state then true
  else decide (target_state ∈ VALID_STATE_TRANSITIONS st.current_state)

/-- GameStateManager.transition_to: returns (return value, new manager
state, events published on the bus). -/
def transition_to (st : GameStateManagerState) (target_state : GameState)
    (context : Option GameStateContext) :
    Bool × GameStateManagerState × List GameEvent :=
  if ¬ can_transition_to st target_state then
    (false, st, [])
  else
    let old_state := st.current_state
    let new_context := match context with
      | some c => c
      | none => st.state_context
    let history0 := st.state_history ++ [target_state]
    let history := if history0.length > 100 then history0.drop 1 else history0
    let st' : GameStateManagerState :=
      { current_state := target_state
        previous_state := some st.current_state
        state_context := new_context
        state_history := history }
    let ev : GameEvent :=
      { event_type := .game_state_changed
        payload := .stateChanged old_state.value target_state.value new_context }
    (true, st', [ev])

/-! ## Event bus state and publish (src/game/core/event_bus.py)

A Python listener callable is represented by an opaque identifier together
with the integer the bus reads as `getattr(listener, "_priority", 0)`.
Whether invoking a listener raises an exception is supplied as an explicit
behaviour function; the source wraps every invocation in try/except, prints
a warning and continues, which the embedding renders by collecting the
raising handlers into a separate `caught` list while the invocation loop
runs to completion. -/

structure Handler where
  hid : Nat
  priority : Int := 0
deriving DecidableEq, Repr

/-- Listener dictionaries of the bus, keyed by event type (Python dict with
unique keys, embedded as a first-match association list). -/
structure EventBusState where
  listeners : List (EventType × List Handler) := []
  one_time_listeners : List (EventType × List Handler) := []
deriving Repr

/-- Dictionary lookup (`d[k]` when `k in d`). -/
def dictFind (d : List (EventType × List Handler)) (et : EventType) :
    Option (List Handler) :=
  (d.find? (fun kv => kv.1 = et)).map (·.2)

/-- Clearing the listener list stored under a key that is present
(`d[k].clear()`); absent keys are untouched, as in the source. -/
def dictClear (d : List (EventType × List Handler)) (et : EventType) :
    List (EventType × List Handler) :=
  d.map (fun kv => if kv.1 = et then (kv.1, []) else kv)

/-- Python `sorted(listeners, key=priority, reverse=True)`: a stable
descending sort by priority. -/
def sortByPriorityDesc (hs : List Handler) : List Handler :=
  hs.mergeSort (fun a b => b.priority ≤ a.priority)

/-- EventBus.publish: returns the new bus state, the handlers invoked in
order, and the handlers whose exception was caught (and swallowed) at the
bus boundary.  `raises h e = true` means invoking handler `h` on event `e`
raises an exception. -/
def publish (raises : Handler → GameEvent → Bool) (st : EventBusState)
    (event : GameEvent) :
    EventBusState × List Handler × List Handler :=
  let durable := match dictFind st.listeners event.event_type with
    | some hs => sortByPriorityDesc hs
    | none => []
  let caught1 := durable.filter (fun h => raises h event)
  let oneshot := match dictFind st.one_time_listeners event.event_type with
    | some hs => hs
    | none => []
  let caught2 := oneshot.filter (fun h => raises h event)
  let one' := dictClear st.one_time_listeners event.event_type
  ({ st with one_time_listeners := one' }, durable ++ oneshot, caught1 ++ caught2)

/-! ## Word repository (src/game/data/repositories/word_repository.py) -/

/-- WordRepository.get_random_word: `choose` stands for `random.choice`,
which the source only ever applies to a non-empty list. -/
def get_random_word (choose : List Word → Option Word) (words : List Word)
    (exclude_word : Option Word) : Option Word :=
  if words.isEmpty then none
  else
    let available := match exclude_word with
      | none => words
      | some ex => words.filter (fun w => w.text ≠ ex.text)
    if available.isEmpty then none else choose available

/-! ## Round manager (src/game/core/round_manager.py) -/

/-- RoundInfo dataclass. -/
structure RoundInfo where
  round_number : Nat
  current_word : Option Word := none
  current_drawer : Option Player := none
  start_time : Option Rat := none
  end_time : Option Rat := none
  time_limit : Nat := DRAWING_TIME_LIMIT
  correct_guesses : List Player := []
  is_active : Bool := false
deriving DecidableEq, Repr

instance : Inhabited Player := ⟨{ player_id := "", name := "", player_type := .human }⟩

/-- RoundManager instance state.  `words` is the loaded word list of the
injected WordRepository (read-only for these operations); `gsm` is the
injected GameStateManager the round manager drives.  Timer callbacks are
external effects and are not part of the state. -/
structure RoundManagerState where
  current_round : Option RoundInfo := none
  round_history : List RoundInfo := []
  players : List Player := []
  current_round_index : Nat := 0
  round_start_time : Option Rat := none
  round_end_time : Option Rat := none
  remaining_time : Int := 0
  words : List Word := []
  gsm : GameStateManagerState := {}
deriving DecidableEq, Repr

/-- Python `guess.strip()`. -/
def pyStrip (s : String) : String := s.trim

/-- Python `s.lower()`. -/
def pyLower (s : String) : String := s.toLower

/-- RoundManager.start_new_round.  `max_rounds` and `drawing_time_limit`
are the configuration constants the source reads (MAX_ROUNDS and
DRAWING_TIME_LIMIT from constants.py), `choose` stands for `random.choice`
inside the word repository and `now` for `time.time()`.  Returns (return
value, new state, events published in order). -/
def start_new_round (max_rounds drawing_time_limit : Nat)
    (choose : List Word → Option Word) (now : Rat)
    (st : RoundManagerState) (round_number? : Option Nat) :
    Bool × RoundManagerState × List GameEvent :=
  if st.players.length < 2 then (false, st, [])
  else
    let round_number := match round_number? with
      | some n => n
      | none => st.round_history.length + 1
    if round_number > max_rounds then (false, st, [])
    else
      let drawer_index : Nat :=
        (((st.current_round_index : Int) + (round_number : Int) - 1)
          % (st.players.length : Int)).toNat
      let drawer := st.players.getD drawer_index default
      let last_word := match st.current_round with
        | some r => r.current_word
        | none => none
      match get_random_word choose st.words last_word with
      | none => (false, st, [])
      | some word =>
        let info : RoundInfo :=
          { round_number := round_number
            current_word := some word
            current_drawer := some drawer
            start_time := some now
            time_limit := drawing_time_limit
            correct_guesses := []
            is_active := true }
        let players' := st.players.map (fun p =>
          let p1 := p.set_drawing_state (decide (p = drawer))
          if p ≠ drawer then p1.set_guessed_state false else p1)
        let context : GameStateContext :=
          { current_round := round_number
            total_rounds := max_rounds
            current_drawer := some drawer.player_id
            current_word := some word.get_display_text }
        let ev : GameEvent :=
          { event_type := .round_start
            payload := .roundStart round_number drawer.player_id word.text
              word.hint drawing_time_limit }
        let t := transition_to st.gsm .drawing (some context)
        let st' := { st with
          current_round := some info
          players := players'
          gsm := t.2.1
          round_start_time := some now
          remaining_time := (drawing_time_limit : Int) }
        (true, st', [ev] ++ t.2.2)

/-- RoundManager.end_current_round. -/
def end_current_round (now : Rat) (st : RoundManagerState) :
    Bool × RoundManagerState × List GameEvent :=
  match st.current_round with
  | none => (false, st, [])
  | some r =>
    if ¬ r.is_active then (false, st, [])
    else
      let r' := { r with is_active := false, end_time := some now }
      let ev : GameEvent :=
        { event_type := .round_end
          payload := .roundEnd r'.round_number (r'.current_drawer.map (·.player_id))
            (r'.current_word.map (·.text)) (r'.correct_guesses.map (·.player_id))
            (match r.start_time with | some s => some (now - s) | none => none) }
      let st' := { st with
        current_round := none
        round_history := st.round_history ++ [r']
        round_start_time := none
        round_end_time := none
        remaining_time := 0 }
      (true, st', [ev])

/-- RoundManager.submit_guess.  In the source the caller passes the live
player object: after a correct guess the very object appended to
`correct_guesses` has its `has_guessed` flag set, so the stored value is
the player with `has_guessed = true`; the same mutation is mirrored into
the roster slot holding that object. -/
def submit_guess (now : Rat) (player : Player) (guess : String)
    (st : RoundManagerState) : Bool × RoundManagerState × List GameEvent :=
  match st.current_round with
  | none => (false, st, [])
  | some r =>
    if ¬ r.is_active then (false, st, [])
    else match r.current_word with
    | none => (false, st, [])
    | some word =>
      if r.current_drawer = some player then (false, st, [])
      else if player ∈ r.correct_guesses then (true, st, [])
      else
        let is_correct := pyLower (pyStrip guess) = pyLower word.text
        let ev1 : GameEvent :=
          { event_type := .guess_submitted
            payload := .guessSubmitted player.player_id guess is_correct }
        if is_correct then
          let r' := { r with
            correct_guesses := r.correct_guesses ++ [player.set_guessed_state true] }
          let players' := st.players.map (fun p =>
            if p = player then p.set_guessed_state true else p)
          let ev2 : GameEvent :=
            { event_type := .guess_correct
              payload := .guessCorrect player.player_id word.text
                (r.start_time.map (fun s => now - s)) }
          (true, { st with current_round := some r', players := players' }, [ev1, ev2])
        else
          let ev3 : GameEvent :=
            { event_type := .guess_incorrect
              payload := .guessIncorrect player.player_id guess }
          (false, st, [ev1, ev3])

/-! ## Scoring system (src/game/core/scoring_system.py) -/

/-- ScoreRecord dataclass (the wall-clock timestamp and the free-form
`extra_info` dict are never read by the verified operations and are left
out). -/
structure ScoreRecord where
  player_id : String
  player_name : String
  round_number : Nat
  score : Int
  score_type : String
deriving DecidableEq, Repr

/-- LeaderboardEntry dataclass. -/
structure LeaderboardEntry where
  player_id : String
  player_name : String
  total_score : Int
  rank : Nat := 0
  correct_guesses : Nat := 0
  times_as_drawer : Nat := 0
deriving DecidableEq, Repr

/-- ScoringSystem instance state: the append-only record list, the
`_player_scores` ledger dict and the `_player_stats` dict (correct-guess
count, times-as-drawer count), both embedded as insertion-ordered
association lists with unique keys, as Python dicts are. -/
structure ScoringSystemState where
  score_records : List ScoreRecord := []
  player_scores : List (String × Int) := []
  player_stats : List (String × Nat × Nat) := []
deriving Repr

/-- Dictionary lookup `d.get(k)` on an association list. -/
def alistFind {β : Type} (d : List (String × β)) (k : String) : Option β :=
  (d.find? (fun kv => kv.1 = k)).map (·.2)

/-- Python `if k not in d: d[k] = v0` (insertion keeps dict order). -/
def alistEnsure {β : Type} (d : List (String × β)) (k : String) (v0 : β) :
    List (String × β) :=
  if (alistFind d k).isSome then d else d ++ [(k, v0)]

/-- Python `d[k] = f(d[k])` on a present key: rewrites the first (unique)
entry with that key. -/
def alistAdjust {β : Type} (f : β → β) :
    List (String × β) → String → List (String × β)
  | [], _ => []
  | kv :: rest, k =>
    if kv.1 = k then (kv.1, f kv.2) :: rest else kv :: alistAdjust f rest k

/-- ScoringSystem.calculate_drawer_score. -/
def calculate_drawer_score (has_correct_guesses : Bool) : Int :=
  if has_correct_guesses then BASE_SCORE_FOR_DRAWER else 0

/-- Python `int(x)` on a float: truncation toward zero. -/
def pyInt (q : Rat) : Int :=
  if q < 0 then ⌈q⌉ else ⌊q⌋

/-- ScoringSystem.calculate_guesser_score: base score, plus
`max(0, int((time_limit - guess_time) * TIME_BONUS_FACTOR))`, plus
SPEED_BONUS_POINTS when the guess came within the first
SPEED_BONUS_THRESHOLD fraction of the time limit. -/
def calculate_guesser_score (guess_time : Rat) (time_limit : Int) : Int :=
  let score := BASE_SCORE_FOR_GUESSER
  let time_bonus := max 0 (pyInt (((time_limit : Rat) - guess_time) * TIME_BONUS_FACTOR))
  let score := score + time_bonus
  if guess_time ≤ (time_limit : Rat) * SPEED_BONUS_THRESHOLD then
    score + SPEED_BONUS_POINTS
  else score

/-- ScoringSystem.add_score: appends a ScoreRecord, bumps the ledger total
and the per-kind counters, and publishes SCORE_UPDATE. -/
def add_score (player : Player) (score : Int) (round_number : Nat)
    (score_type : String) (st : ScoringSystemState) :
    ScoringSystemState × List GameEvent :=
  let record : ScoreRecord :=
    { player_id := player.player_id
      player_name := player.name
      round_number := round_number
      score := score
      score_type := score_type }
  let records := st.score_records ++ [record]
  let scores :=
    alistAdjust (· + score) (alistEnsure st.player_scores player.player_id 0)
      player.player_id
  let stats0 := alistEnsure st.player_stats player.player_id (0, 0)
  let stats :=
    if score_type = "guesser" then
      alistAdjust (fun cg => (cg.1 + 1, cg.2)) stats0 player.player_id
    else if score_type = "drawer" then
      alistAdjust (fun cg => (cg.1, cg.2 + 1)) stats0 player.player_id
    else stats0
  let total := (alistFind scores player.player_id).getD 0
  let ev : GameEvent :=
    { event_type := .score_update
      payload := .scoreUpdate player.player_id player.name score total
        round_number score_type }
  ({ score_records := records, player_scores := scores, player_stats := stats },
    [ev])

/-- ScoringSystem.get_player_score: `self._player_scores.get(player_id, 0)`. -/
def get_player_score (st : ScoringSystemState) (player_id : String) : Int :=
  (alistFind st.player_scores player_id).getD 0

/-- ScoringSystem.reset: clears the records, the ledger and the stats. -/
def scoring_reset (_st : ScoringSystemState) : ScoringSystemState :=
  { score_records := [], player_scores := [], player_stats := [] }

/-- GameData (src/game/data/models/game_data.py): only the fields read by
the verified operations (`get_leaderboard` reads the roster) are carried. -/
structure GameData where
  game_id : String
  players : List Player := []
deriving Repr

/-- Leaderboard entry built for one player id inside
ScoringSystem.get_leaderboard: display name from the roster when available
(first match, as the Python for/break loop) else the synthesized
placeholder, total from the ledger with default 0, counters from the stats
dict with default (0, 0), rank still unset. -/
def mkLeaderboardEntry (st : ScoringSystemState) (game_data : Option GameData)
    (pid : String) : LeaderboardEntry :=
  let player_name := match game_data with
    | some gd =>
      match gd.players.find? (fun p => p.player_id = pid) with
      | some p => p.name
      | none => "玩家" ++ pid
    | none => "玩家" ++ pid
  let total_score := (alistFind st.player_scores pid).getD 0
  let stats := (alistFind st.player_stats pid).getD (0, 0)
  { player_id := pid
    player_name := player_name
    total_score := total_score
    rank := 0
    correct_guesses := stats.1
    times_as_drawer := stats.2 }

/-- ScoringSystem.get_leaderboard.  The Python source iterates over
`player_ids = set(ledger keys) | set(roster ids)`; since the iteration
order of a Python set is unspecified, it is supplied here as the explicit
list `ids_iter`, which theorems require to enumerate exactly that union,
each id once.  The `entries.sort(key=total_score, reverse=True)` call is a
stable descending sort, embedded as `List.mergeSort`. -/
def get_leaderboard (st : ScoringSystemState) (game_data : Option GameData)
    (ids_iter : List String) : List LeaderboardEntry :=
  let entries := ids_iter.map (mkLeaderboardEntry st game_data)
  let sorted := entries.mergeSort (fun a b => b.total_score ≤ a.total_score)
  sorted.enum.map (fun ie => { ie.2 with rank := ie.1 + 1 })

/-- Forgetting the rank a leaderboard entry was assigned (for comparing the
ranked output with the unranked entries it was built from). -/
def stripRank (e : LeaderboardEntry) : LeaderboardEntry :=
  { e with rank := 0 }

/-- Operations of the scoring system as driven by callers: add_score and
reset (the observation get_player_score does not change state). -/
inductive ScoringOp
  | addScore (player : Player) (score : Int) (round_number : Nat) (score_type : String)
  | resetOp

/-- Applying one scoring operation to the state. -/
def applyScoringOp (st : ScoringSystemState) : ScoringOp → ScoringSystemState
  | .addScore p s rn ty => (add_score p s rn ty st).1
  | .resetOp => scoring_reset st

/-- Running a sequence of scoring operations from the freshly constructed
system (all containers empty). -/
def runScoringOps (ops : List ScoringOp) : ScoringSystemState :=
  ops.foldl applyScoringOp {}

/-- Sum of the `score` field over all stored records with a given player id. -/
def recordSum (records : List ScoreRecord) (player_id : String) : Int :=
  ((records.filter (fun r => r.player_id = player_id)).map (fun r => r.score)).sum

/-- Ids iterated by get_leaderboard: the ledger keys together with the
roster ids (as a list that may repeat ids present in both; theorems relate
it to the iteration list through membership). -/
def unionIds (st : ScoringSystemState) (game_data : Option GameData) : List String :=
  st.player_scores.map (·.1) ++
    (match game_data with
      | some gd => gd.players.map (·.player_id)
      | none => [])

/-- Aliasing discipline of the round manager under value semantics: roster
ids are distinct, and every recorded correct guesser of the active round is
one of the roster objects, with distinct ids. -/
def guessInvariant (st : RoundManagerState) : Prop :=
  (st.players.map (·.player_id)).Nodup ∧
  match st.current_round with
  | none => True
  | some r =>
    (∀ q ∈ r.correct_guesses, q ∈ st.players) ∧
    (r.correct_guesses.map (·.player_id)).Nodup

/-! ## Concrete fixtures used by witnesses and counterexamples -/

def pA : Player := { player_id := "p1", name := "Alice", player_type := .human }

def pB : Player := { player_id := "p2", name := "Bob", player_type := .ai }

def pC : Player := { player_id := "p3", name := "Carol", player_type := .ai }

def wApple : Word :=
  { text := "apple", category := "food", difficulty := "easy", hint := "a food" }

def wBanana : Word :=
  { text := "banana", category := "food", difficulty := "easy", hint := "a food" }

/-- Deterministic instantiation of `random.choice`: pick the first word. -/
def chooseFirst (l : List Word) : Option Word := l.head?

/-- Active round: Alice draws the word "apple". -/
def activeRound : RoundInfo :=
  { round_number := 1, current_word := some wApple, current_drawer := some pA,
    start_time := some 0, is_active := true }

/-- Round manager holding the active round, both players, a two-word bank. -/
def stActive : RoundManagerState :=
  { current_round := some activeRound, players := [pA, pB],
    words := [wApple, wBanana],
    gsm := { current_state := .drawing,
             state_history := [.waiting, .drawing] } }

/-- Bob after a correct guess (his `has_guessed` flag is set). -/
def pBg : Player := { pB with has_guessed := true }

/-- Active round in which Bob has already guessed the word. -/
def roundGuessed : RoundInfo :=
  { activeRound with correct_guesses := [pBg] }

def stGuessed : RoundManagerState :=
  { stActive with current_round := some roundGuessed, players := [pA, pBg] }

/-- Round 1 after end_current_round stamped and archived it. -/
def endedRound : RoundInfo :=
  { round_number := 1, current_word := some wApple, current_drawer := some pA,
    start_time := some 0, end_time := some 10, is_active := false }

/-- Round manager right after the first round ended: no current round, the
ended round in the history, a bank with two distinct word texts. -/
def stAfterEnd : RoundManagerState :=
  { current_round := none, round_history := [endedRound],
    players := [pA, pB], words := [wApple, wBanana],
    gsm := { current_state := .scoring,
             state_history := [.waiting, .drawing, .guessing, .scoring] } }

/-- Fresh round manager: two players, two words, nothing played yet. -/
def stFresh : RoundManagerState :=
  { players := [pA, pB], words := [wApple, wBanana] }

/-- Round manager holding an active round whose word is the only word in
the bank. -/
def stActiveOneWord : RoundManagerState :=
  { current_round := some activeRound, players := [pA, pB], words := [wApple] }

/-- Round started by start_new_round over `stActive` with round number 2 at
time 5 under `chooseFirst`: Bob draws "banana". -/
def infoRound2 : RoundInfo :=
  { round_number := 2, current_word := some wBanana, current_drawer := some pB,
    start_time := some 5, time_limit := 90, correct_guesses := [],
    is_active := true }

/-- Scoring ledger for the leaderboard fixtures: Alice and Bob tied at 40,
Carol absent from the ledger. -/
def stLedger : ScoringSystemState :=
  { score_records :=
      [ { player_id := "p1", player_name := "Alice", round_number := 1,
          score := 40, score_type := "guesser" },
        { player_id := "p2", player_name := "Bob", round_number := 1,
          score := 40, score_type := "drawer" } ],
    player_scores := [("p1", 40), ("p2", 40)],
    player_stats := [("p1", 1, 0), ("p2", 0, 1)] }

def gdRoster : GameData := { game_id := "g1", players := [pA, pB, pC] }

/-- One iteration order of the Python set of ids for `stLedger`/`gdRoster`. -/
def idsFix : List String := ["p2", "p1", "p3"]

/-- Bus with two durable subscribers and one one-shot subscriber on
GUESS_SUBMITTED. -/
def busFix : EventBusState :=
  { listeners := [(EventType.guess_submitted,
      [{ hid := 1, priority := 0 }, { hid := 2, priority := 5 }])]
    one_time_listeners := [(EventType.guess_submitted,
      [{ hid := 3, priority := 0 }])] }

def evFix : GameEvent :=
  { event_type := .guess_submitted
    payload := .guessSubmitted "p2" "apple" true }

/-- Behaviour in which exactly the handler with id 1 raises. -/
def raisesHid1 : Handler → GameEvent → Bool := fun h _ => h.hid = 1

/-! ## Claim theorems -/

/-- C1: for every manager state and every pair (currentState, target) with
target neither equal to the current state nor a listed successor in
VALID_STATE_TRANSITIONS, transition_to returns false and changes nothing of
the manager state and publishes nothing; if target equals the current state
or is a listed successor, transition_to returns true. -/
theorem C1_state_machine_legality (st : GameStateManagerState)
    (target : GameState) (ctx : Option GameStateContext) :
    (target ≠ st.current_state ∧ target ∉ VALID_STATE_TRANSITIONS st.current_state →
      transition_to st target ctx = (false, st, [])) ∧
    ((target = st.current_state ∨ target ∈ VALID_STATE_TRANSITIONS st.current_state) →
      (transition_to st target ctx).1 = true) := by
  constructor
  · rintro ⟨h1, h2⟩
    have hc : can_transition_to st target = false := by
      unfold can_transition_to
      have h3 : ¬ st.current_state = target := fun h => h1 h.symm
      simp [h3, h2]
    unfold transition_to
    simp [hc]
  · intro h
    have hc : can_transition_to st target = true := by
      unfold can_transition_to
      rcases h with h | h
      · simp [h.symm]
      · by_cases he : st.current_state = target <;> simp [he, h]
    unfold transition_to
    simp [hc]

/-- Witness for C1: from the initial Waiting state, Guessing is illegal and
rejected without mutation, while Drawing is a listed successor and accepted. -/
theorem C1_state_machine_legality_witness :
    ((GameState.guessing ≠ ({} : GameStateManagerState).current_state ∧
        GameState.guessing ∉ VALID_STATE_TRANSITIONS ({} : GameStateManagerState).current_state) ∧
      transition_to {} .guessing none = (false, {}, [])) ∧
    ((GameState.drawing = ({} : GameStateManagerState).current_state ∨
        GameState.drawing ∈ VALID_STATE_TRANSITIONS ({} : GameStateManagerState).current_state) ∧
      (transition_to {} .drawing none).1 = true) :=
  ⟨⟨by decide, (C1_state_machine_legality {} .guessing none).1 (by decide)⟩,
    ⟨by decide, (C1_state_machine_legality {} .drawing none).2 (by decide)⟩⟩

/-- C2: on an active round, a guess submitted by the round's current drawer
returns false whatever the guess text is, changes nothing, and publishes no
event. -/
theorem C2_drawer_excluded (st : RoundManagerState) (r : RoundInfo)
    (player : Player) (guess : String) (now : Rat)
    (hcur : st.current_round = some r) (hact : r.is_active = true)
    (hdr : r.current_drawer = some player) :
    submit_guess now player guess st = (false, st, []) := by
  unfold submit_guess
  rw [hcur]
  cases hw : r.current_word <;> simp [hact, hw, hdr]

/-- Witness for C2: Alice is drawing "apple"; her submitting the exact
secret word is still rejected with no state change and no event. -/
theorem C2_drawer_excluded_witness :
    (stActive.current_round = some activeRound ∧ activeRound.is_active = true ∧
      activeRound.current_drawer = some pA) ∧
    submit_guess 5 pA "apple" stActive = (false, stActive, []) :=
  ⟨⟨rfl, rfl, rfl⟩, C2_drawer_excluded stActive activeRound pA "apple" 5 rfl rfl rfl⟩

/-- C5 counterexample: the claim computes the time bonus with
round-to-nearest; at guess_time 1/4 and time limit 90 the code truncates
89.75 to 89 and returns 129, while the claimed formula rounds to 90 and
yields 130. -/
theorem C5_guesser_score_counterexample :
    ¬ (calculate_guesser_score (1 / 4) 90 =
        BASE_SCORE_FOR_GUESSER +
          max 0 (round (((90 : Rat) - 1 / 4) * TIME_BONUS_FACTOR)) +
          (if (1 / 4 : Rat) ≤ (90 : Rat) * SPEED_BONUS_THRESHOLD then
            SPEED_BONUS_POINTS else 0)) := by
  have hL : calculate_guesser_score (1 / 4) 90 = 129 := by
    norm_num [calculate_guesser_score, pyInt, BASE_SCORE_FOR_GUESSER,
      TIME_BONUS_FACTOR, SPEED_BONUS_THRESHOLD, SPEED_BONUS_POINTS]
  rw [hL]
  norm_num [BASE_SCORE_FOR_GUESSER, TIME_BONUS_FACTOR, SPEED_BONUS_THRESHOLD,
    SPEED_BONUS_POINTS, round_eq]

/-- C5 amended: calculate_guesser_score returns the base guesser amount 30
plus max(0, int((timeLimit - guessTime) * 1)) where int is Python
truncation toward zero (not rounding to nearest), plus the flat 10-point
speed bonus exactly when guessTime <= timeLimit * 0.33. -/
theorem C5_guesser_score_amended (guess_time : Rat) (time_limit : Int) :
    calculate_guesser_score guess_time time_limit =
      30 + max 0 (pyInt (((time_limit : Rat) - guess_time) * 1)) +
        (if guess_time ≤ (time_limit : Rat) * (33 / 100) then 10 else 0) := by
  simp only [calculate_guesser_score, BASE_SCORE_FOR_GUESSER, TIME_BONUS_FACTOR,
    SPEED_BONUS_THRESHOLD, SPEED_BONUS_POINTS]
  split <;> ring

/-- Case analysis of submit_guess: either the state is returned untouched,
or the call hit the correct-guess branch and the only changes are the
appended guesser and the roster flag update. -/
lemma submit_guess_state (n2 : Rat) (p2 : Player) (g2 : String)
    (st2 : RoundManagerState) :
    (submit_guess n2 p2 g2 st2).2.1 = st2 ∨
    ∃ r2, st2.current_round = some r2 ∧ r2.is_active = true ∧
      ¬ r2.current_drawer = some p2 ∧ p2 ∉ r2.correct_guesses ∧
      (submit_guess n2 p2 g2 st2).2.1 =
        { st2 with
          current_round := some { r2 with
            correct_guesses := r2.correct_guesses ++ [p2.set_guessed_state true] }
          players := st2.players.map
            (fun p => if p = p2 then p.set_guessed_state true else p) } := by
  unfold submit_guess
  cases hcur2 : st2.current_round with
  | none => left; rfl
  | some r2 =>
    by_cases ha : r2.is_active = true
    · cases hw2 : r2.current_word with
      | none => left; simp [ha, hw2]
      | some w2 =>
        by_cases hd : r2.current_drawer = some p2
        · left; simp [ha, hw2, hd]
        · by_cases hm : p2 ∈ r2.correct_guesses
          · left; simp [ha, hw2, hd, hm]
          · by_cases hc : pyLower (pyStrip g2) = pyLower w2.text
            · right
              exact ⟨r2, rfl, ha, hd, hm, by simp [ha, hw2, hd, hm, hc]⟩
            · left; simp [ha, hw2, hd, hm, hc]
    · left; simp [ha]

/-- C3: a guess resubmitted by a player already in the correct-guesser list
of the active round returns true with no state change and no event; and
submit_guess preserves the aliasing invariant (roster ids distinct, correct
guessers drawn from the roster with distinct ids), so the correct-guesser
list holds each player at most once across any sequence of calls passing
roster members. -/
theorem C3_guess_idempotent (st : RoundManagerState) (r : RoundInfo)
    (player : Player) (guess : String) (now : Rat) (w : Word)
    (hcur : st.current_round = some r) (hact : r.is_active = true)
    (hw : r.current_word = some w)
    (hnd : ¬ r.current_drawer = some player)
    (hmem : player ∈ r.correct_guesses) :
    submit_guess now player guess st = (true, st, []) ∧
    (∀ (st2 : RoundManagerState) (p2 : Player) (g2 : String) (n2 : Rat),
      guessInvariant st2 → p2 ∈ st2.players →
      guessInvariant (submit_guess n2 p2 g2 st2).2.1) := by
  constructor
  · unfold submit_guess
    rw [hcur]
    simp [hact, hw, hnd, hmem]
  · intro st2 p2 g2 n2 hinv hp2
    rcases submit_guess_state n2 p2 g2 st2 with heq | ⟨r2, hcur2, _, _, hm, heq⟩
    · rw [heq]; exact hinv
    · obtain ⟨hros, hrest⟩ := hinv
      have hrest2 : (∀ q ∈ r2.correct_guesses, q ∈ st2.players) ∧
          (r2.correct_guesses.map (fun q => q.player_id)).Nodup := by
        rw [hcur2] at hrest
        exact hrest
      have hids : (st2.players.map
            (fun p => if p = p2 then p.set_guessed_state true else p)).map
            (fun q => q.player_id) = st2.players.map (fun q => q.player_id) := by
        rw [List.map_map]
        apply List.map_congr_left
        intro a _
        by_cases h : a = p2 <;> simp [h, Player.set_guessed_state]
      have hu_id : (p2.set_guessed_state true).player_id = p2.player_id := rfl
      have hnotin : p2.player_id ∉ r2.correct_guesses.map (fun q => q.player_id) := by
        intro hin
        rcases List.mem_map.mp hin with ⟨q, hq, hqid⟩
        have hqp : q ∈ st2.players := hrest2.1 q hq
        have : q = p2 := List.inj_on_of_nodup_map hros hqp hp2 hqid
        exact hm (this ▸ hq)
      rw [heq]
      refine ⟨?_, ?_, ?_⟩
      · simpa [hids] using hros
      · intro q hq
        rcases List.mem_append.mp hq with hq | hq
        · have hq2 : q ∈ st2.players := hrest2.1 q hq
          have hqne : q ≠ p2 := by
            intro h
            exact hm (h ▸ hq)
          exact List.mem_map.mpr ⟨q, hq2, by simp [hqne]⟩
        · rcases List.mem_singleton.mp hq with rfl
          exact List.mem_map.mpr ⟨p2, hp2, by simp⟩
      · rw [List.map_append]
        rw [List.nodup_append]
        refine ⟨hrest2.2, List.nodup_singleton _, ?_⟩
        intro x hx hx2
        simp [Player.set_guessed_state] at hx2
        subst hx2
        exact hnotin hx

/-- Witness for C3: Bob, already in the correct-guesser list, resubmits any
text and is acknowledged without duplication or events; the invariant also
survives Alice submitting the word. -/
theorem C3_guess_idempotent_witness :
    (stGuessed.current_round = some roundGuessed ∧ roundGuessed.is_active = true ∧
        roundGuessed.current_word = some wApple ∧
        ¬ roundGuessed.current_drawer = some pBg ∧
        pBg ∈ roundGuessed.correct_guesses) ∧
    submit_guess 7 pBg "banana" stGuessed = (true, stGuessed, []) ∧
    guessInvariant (submit_guess 7 pA "apple" stGuessed).2.1 := by
  have h := C3_guess_idempotent stGuessed roundGuessed pBg "banana" 7 wApple rfl rfl rfl
    (by decide) (by decide)
  refine ⟨⟨rfl, rfl, rfl, by decide, by decide⟩, h.1, h.2 stGuessed pA "apple" 7 ?_ (by decide)⟩
  refine ⟨by decide, ?_⟩
  show (∀ q ∈ roundGuessed.correct_guesses, q ∈ stGuessed.players) ∧
    (roundGuessed.correct_guesses.map (fun q => q.player_id)).Nodup
  decide

/-- Looking up the adjusted key returns the adjusted value. -/
lemma alistFind_adjust_self {β : Type} (f : β → β) (d : List (String × β))
    (k : String) : alistFind (alistAdjust f d k) k = (alistFind d k).map f := by
  induction d with
  | nil => simp [alistFind, alistAdjust]
  | cons kv rest ih =>
    by_cases h : kv.1 = k
    · simp [alistFind, alistAdjust, h]
    · simpa [alistFind, alistAdjust, h] using ih

/-- Adjusting one key leaves other lookups unchanged. -/
lemma alistFind_adjust_ne {β : Type} (f : β → β) (d : List (String × β))
    (k k2 : String) (h : k2 ≠ k) :
    alistFind (alistAdjust f d k) k2 = alistFind d k2 := by
  induction d with
  | nil => simp [alistFind, alistAdjust]
  | cons kv rest ih =>
    by_cases hk : kv.1 = k
    · subst hk
      simp [alistFind, alistAdjust, Ne.symm h]
    · by_cases hk2 : kv.1 = k2
      · simp [alistFind, alistAdjust, hk, hk2, h]
      · simpa [alistFind, alistAdjust, hk, hk2] using ih

/-- Looking up the ensured key yields its previous value or the default. -/
lemma alistFind_ensure_self {β : Type} (d : List (String × β)) (k : String)
    (v0 : β) :
    alistFind (alistEnsure d k v0) k = some ((alistFind d k).getD v0) := by
  unfold alistEnsure
  cases hv : alistFind d k with
  | some v => simp [hv]
  | none =>
    have hf : List.find? (fun kv => decide (kv.1 = k)) d = none := by
      have h2 := hv
      unfold alistFind at h2
      exact Option.map_eq_none'.mp h2
    rw [if_neg (by simp)]
    unfold alistFind
    rw [List.find?_append, hf]
    simp [List.find?]

/-- Ensuring one key leaves other lookups unchanged. -/
lemma alistFind_ensure_ne {β : Type} (d : List (String × β)) (k : String)
    (v0 : β) (k2 : String) (h : k2 ≠ k) :
    alistFind (alistEnsure d k v0) k2 = alistFind d k2 := by
  unfold alistEnsure
  by_cases hv : (alistFind d k).isSome
  · simp [hv]
  · have hsome : (alistFind d k).isSome = false := by simpa using hv
    rw [hsome]
    simp only [Bool.false_eq_true, if_false]
    unfold alistFind
    rw [List.find?_append]
    cases hf : List.find? (fun kv => decide (kv.1 = k2)) d with
    | some v => simp [hf]
    | none => simp [hf, List.find?, Ne.symm h]

/-- Effect of add_score on the ledger read by get_player_score. -/
lemma add_score_get (p : Player) (s : Int) (rn : Nat) (ty : String)
    (st : ScoringSystemState) (q : String) :
    get_player_score (add_score p s rn ty st).1 q =
      get_player_score st q + (if p.player_id = q then s else 0) := by
  unfold add_score get_player_score
  by_cases h : p.player_id = q
  · subst h
    rw [alistFind_adjust_self, alistFind_ensure_self]
    simp
  · rw [alistFind_adjust_ne _ _ _ _ (Ne.symm h),
      alistFind_ensure_ne _ _ _ _ (Ne.symm h)]
    simp [h]

/-- add_score appends exactly one record. -/
lemma add_score_records (p : Player) (s : Int) (rn : Nat) (ty : String)
    (st : ScoringSystemState) :
    (add_score p s rn ty st).1.score_records =
      st.score_records ++
        [{ player_id := p.player_id, player_name := p.name, round_number := rn,
           score := s, score_type := ty }] := rfl

/-- Recorded sum after appending one record. -/
lemma recordSum_append_single (records : List ScoreRecord) (rec : ScoreRecord)
    (pid : String) :
    recordSum (records ++ [rec]) pid =
      recordSum records pid + (if rec.player_id = pid then rec.score else 0) := by
  simp only [recordSum, List.filter_append]
  by_cases h : rec.player_id = pid
  · simp [h]
  · simp [h]

/-- C6: after any sequence of add_score and reset operations starting from
the fresh scoring system, get_player_score of any id equals the sum of the
score field over the stored records with that player id; every operation
preserves the equality. -/
theorem C6_ledger_sum_invariant (ops : List ScoringOp) (pid : String) :
    get_player_score (runScoringOps ops) pid =
      recordSum (runScoringOps ops).score_records pid := by
  suffices h : ∀ st : ScoringSystemState,
      (∀ q, get_player_score st q = recordSum st.score_records q) →
      ∀ q, get_player_score (ops.foldl applyScoringOp st) q =
        recordSum (ops.foldl applyScoringOp st).score_records q by
    exact h {} (by intro q; simp [get_player_score, recordSum, alistFind]) pid
  induction ops with
  | nil => intro st h q; simpa using h q
  | cons op rest ih =>
    intro st h q
    simp only [List.foldl_cons]
    apply ih
    intro q2
    cases op with
    | resetOp =>
      simp [applyScoringOp, scoring_reset, get_player_score, recordSum, alistFind]
    | addScore p s rn ty =>
      simp only [applyScoringOp]
      rw [add_score_get, add_score_records, recordSum_append_single, h q2]

/-- Clearing a key makes its lookup yield the empty handler list. -/
lemma dictClear_getD (d : List (EventType × List Handler)) (et : EventType) :
    (dictFind (dictClear d et) et).getD [] = [] := by
  induction d with
  | nil => rfl
  | cons kv rest ih =>
    by_cases h : kv.1 = et
    · simp [dictFind, dictClear, h]
    · simpa [dictFind, dictClear, h] using ih

/-- C8: publish invokes every durable handler registered for the event's
type (in stable descending priority order) and then every one-shot handler,
then clears the one-shot registrations for that type; a raising handler is
caught at the bus boundary, so the invocation list is the same whatever the
raising behaviour is, and publish always returns. -/
theorem C8_publish_delivery (st : EventBusState) (e : GameEvent)
    (raises : Handler → GameEvent → Bool) :
    (publish raises st e).2.1 =
      sortByPriorityDesc ((dictFind st.listeners e.event_type).getD []) ++
        (dictFind st.one_time_listeners e.event_type).getD [] ∧
    (∀ h, h ∈ (dictFind st.listeners e.event_type).getD [] →
      h ∈ (publish raises st e).2.1) ∧
    (∀ h, h ∈ (dictFind st.one_time_listeners e.event_type).getD [] →
      h ∈ (publish raises st e).2.1) ∧
    (dictFind (publish raises st e).1.one_time_listeners e.event_type).getD [] = [] ∧
    (publish raises st e).1.listeners = st.listeners ∧
    (∀ raises2 : Handler → GameEvent → Bool,
      (publish raises2 st e).2.1 = (publish raises st e).2.1) := by
  have hinv : (publish raises st e).2.1 =
      sortByPriorityDesc ((dictFind st.listeners e.event_type).getD []) ++
        (dictFind st.one_time_listeners e.event_type).getD [] := by
    unfold publish
    cases hD : dictFind st.listeners e.event_type <;>
      cases hO : dictFind st.one_time_listeners e.event_type <;>
        simp [hD, hO, sortByPriorityDesc]
  refine ⟨hinv, ?_, ?_, ?_, rfl, ?_⟩
  · intro h hh
    rw [hinv]
    refine List.mem_append_left _ ?_
    exact ((List.mergeSort_perm _ _).mem_iff).mpr hh
  · intro h hh
    rw [hinv]
    exact List.mem_append_right _ hh
  · show (dictFind (dictClear st.one_time_listeners e.event_type) e.event_type).getD [] = []
    exact dictClear_getD _ _
  · intro raises2
    rfl

/-- Rounding the rotation index: with base 0 and round number at least 1,
the Python integer arithmetic of the drawer index equals (r - 1) mod N. -/
lemma drawer_index_eq (r N : Nat) (h1 : 1 ≤ r) :
    ((((0 : Nat) : Int) + (r : Int) - 1) % (N : Int)).toNat = (r - 1) % N := by
  have h2 : ((0 : Nat) : Int) + (r : Int) - 1 = ((r - 1 : Nat) : Int) := by
    omega
  rw [h2, ← Int.natCast_mod, Int.toNat_natCast]

/-- Reading off the whole roster by rotating through indices (k-1) mod N
for k = 1..N. -/
lemma roster_rotation (l : List Player) (N : Nat) (hN : l.length = N) :
    (List.range' 1 N).map (fun k => l.getD ((k - 1) % N) default) = l := by
  subst hN
  apply List.ext_getElem
  · simp
  · intro i h1 h2
    simp only [List.getElem_map, List.getElem_range']
    have e1 : 1 + 1 * i - 1 = i := by omega
    rw [e1, Nat.mod_eq_of_lt h2]
    exact List.getD_eq_getElem l default h2

/-- C7 counterexample: start_new_round succeeds on a fresh two-player
manager yet leaves the rotation base index exactly where it was (0), so the
base index is not advanced by the call, contrary to the claim. -/
theorem C7_rotation_counterexample :
    stFresh.current_round_index = 0 ∧
    (start_new_round MAX_ROUNDS DRAWING_TIME_LIMIT chooseFirst 0 stFresh (some 1)).1 = true ∧
    (start_new_round MAX_ROUNDS DRAWING_TIME_LIMIT chooseFirst 0 stFresh
      (some 1)).2.1.current_round_index = stFresh.current_round_index := by
  refine ⟨rfl, ?_, ?_⟩ <;> decide

/-- C7 amended: the drawer of round r is the roster entry at index
(baseIndex + r - 1) mod N, where the base index is left unchanged by
start_new_round (it stays 0 until reset); consequently, with base 0, rounds
1..N walk the indices 0..N-1 in order, selecting every roster player
exactly once, in roster order. -/
theorem C7_rotation_amended (max_rounds tl : Nat)
    (choose : List Word → Option Word) (now : Rat) (st : RoundManagerState)
    (r N : Nat) (hN : st.players.length = N) (h2 : 2 ≤ N)
    (hbase : st.current_round_index = 0)
    (hr1 : 1 ≤ r) (hrmax : r ≤ max_rounds)
    (hword : (get_random_word choose st.words
      (match st.current_round with
        | some r0 => r0.current_word
        | none => none)).isSome) :
    (start_new_round max_rounds tl choose now st (some r)).1 = true ∧
    (start_new_round max_rounds tl choose now st
      (some r)).2.1.current_round_index = 0 ∧
    ((start_new_round max_rounds tl choose now st (some r)).2.1.current_round.map
      (fun info => info.current_drawer)) =
      some (some (st.players.getD ((r - 1) % N) default)) ∧
    (List.range' 1 N).map (fun k => st.players.getD ((k - 1) % N) default) =
      st.players := by
  obtain ⟨w, hw⟩ := Option.isSome_iff_exists.mp hword
  unfold start_new_round
  rw [if_neg (by omega)]
  simp only []
  rw [if_neg (by omega)]
  rw [hw]
  simp only [hbase, hN]
  rw [drawer_index_eq r N hr1]
  exact ⟨trivial, trivial, rfl, roster_rotation st.players N hN⟩

/-- Witness for the amended C7: the fresh two-player manager, round 1,
selects Alice (index 0) and keeps the base index at 0; rounds 1..2 walk the
roster [Alice, Bob] in order. -/
theorem C7_rotation_amended_witness :
    (stFresh.players.length = 2 ∧ stFresh.current_round_index = 0 ∧
      (1 : Nat) ≤ MAX_ROUNDS ∧
      (get_random_word chooseFirst stFresh.words
        (match stFresh.current_round with
          | some r0 => r0.current_word
          | none => none)).isSome) ∧
    (start_new_round MAX_ROUNDS DRAWING_TIME_LIMIT chooseFirst 0 stFresh (some 1)).1 = true ∧
    (start_new_round MAX_ROUNDS DRAWING_TIME_LIMIT chooseFirst 0 stFresh
      (some 1)).2.1.current_round_index = 0 ∧
    ((start_new_round MAX_ROUNDS DRAWING_TIME_LIMIT chooseFirst 0 stFresh
      (some 1)).2.1.current_round.map (fun info => info.current_drawer)) =
      some (some (stFresh.players.getD ((1 - 1) % 2) default)) ∧
    (List.range' 1 2).map (fun k => stFresh.players.getD ((k - 1) % 2) default) =
      stFresh.players :=
  ⟨⟨rfl, rfl, by decide, by decide⟩,
    C7_rotation_amended MAX_ROUNDS DRAWING_TIME_LIMIT chooseFirst 0 stFresh 1 2
      rfl (by decide) rfl (by decide) (by decide) (by decide)⟩

/-- C4 counterexample: after the first round ended (it sits in the history
with word "apple") and with a two-word bank of distinct texts, a
start_new_round call can draw "apple" again — no exclusion happens because
end_current_round cleared the current-round pointer the exclusion reads. -/
theorem C4_word_exclusion_counterexample :
    stAfterEnd.round_history = [endedRound] ∧
    endedRound.current_word = some wApple ∧
    stAfterEnd.words = [wApple, wBanana] ∧
    ¬ wApple.text = wBanana.text ∧
    (start_new_round MAX_ROUNDS DRAWING_TIME_LIMIT chooseFirst 20 stAfterEnd none).1 = true ∧
    ((start_new_round MAX_ROUNDS DRAWING_TIME_LIMIT chooseFirst 20 stAfterEnd
      none).2.1.current_round.map (fun info => info.current_word.map Word.text)) =
      some (some wApple.text) := by
  refine ⟨rfl, rfl, rfl, by decide, by decide, by decide⟩


/-- transition_to never publishes ROUND_END. -/
lemma transition_to_no_round_end (gsm : GameStateManagerState) (t : GameState)
    (ctx : Option GameStateContext) :
    (transition_to gsm t ctx).2.2.filter
      (fun ev => ev.event_type = EventType.round_end) = [] := by
  unfold transition_to
  split
  · rfl
  · simp

/-- start_new_round fails without mutation when fewer than 2 players are
registered. -/
lemma start_new_round_fail_players (mr tl : Nat) (choose : List Word → Option Word)
    (now : Rat) (st : RoundManagerState) (rn? : Option Nat)
    (h : st.players.length < 2) :
    start_new_round mr tl choose now st rn? = (false, st, []) := by
  unfold start_new_round
  rw [if_pos h]

/-- start_new_round fails without mutation when the resolved round number
exceeds the configured maximum. -/
lemma start_new_round_fail_max (mr tl : Nat) (choose : List Word → Option Word)
    (now : Rat) (st : RoundManagerState) (rn? : Option Nat) (rn : Nat)
    (hrn : (match rn? with
      | some n => n
      | none => st.round_history.length + 1) = rn)
    (h2 : ¬ st.players.length < 2) (h : rn > mr) :
    start_new_round mr tl choose now st rn? = (false, st, []) := by
  unfold start_new_round
  rw [if_neg h2]
  simp only [hrn]
  rw [if_pos h]

/-- start_new_round fails without mutation when the word draw yields
nothing. -/
lemma start_new_round_fail_word (mr tl : Nat) (choose : List Word → Option Word)
    (now : Rat) (st : RoundManagerState) (rn? : Option Nat) (rn : Nat)
    (hrn : (match rn? with
      | some n => n
      | none => st.round_history.length + 1) = rn)
    (h2 : ¬ st.players.length < 2) (hmax : ¬ rn > mr)
    (hg : get_random_word choose st.words
      (match st.current_round with
        | some r0 => r0.current_word
        | none => none) = none) :
    start_new_round mr tl choose now st rn? = (false, st, []) := by
  unfold start_new_round
  rw [if_neg h2]
  simp only [hrn, hg]
  rw [if_neg hmax]

/-- Successful start_new_round, characterized: returns true, keeps the
round history and the rotation index, installs the freshly built RoundInfo,
and publishes no ROUND_END. -/
lemma start_new_round_eq (mr tl : Nat) (choose : List Word → Option Word)
    (now : Rat) (st : RoundManagerState) (rn? : Option Nat) (rn : Nat)
    (wNew : Word)
    (hrn : (match rn? with
      | some n => n
      | none => st.round_history.length + 1) = rn)
    (h2 : ¬ st.players.length < 2) (hmax : ¬ rn > mr)
    (hg : get_random_word choose st.words
      (match st.current_round with
        | some r0 => r0.current_word
        | none => none) = some wNew) :
    (start_new_round mr tl choose now st rn?).1 = true ∧
    (start_new_round mr tl choose now st rn?).2.1.round_history =
      st.round_history ∧
    (start_new_round mr tl choose now st rn?).2.1.current_round_index =
      st.current_round_index ∧
    (start_new_round mr tl choose now st rn?).2.1.current_round =
      some { round_number := rn
             current_word := some wNew
             current_drawer := some (st.players.getD
               (((st.current_round_index : Int) + (rn : Int) - 1)
                 % (st.players.length : Int)).toNat default)
             start_time := some now
             end_time := none
             time_limit := tl
             correct_guesses := []
             is_active := true } ∧
    ((start_new_round mr tl choose now st rn?).2.2.filter
      (fun ev => ev.event_type = EventType.round_end)) = [] := by
  unfold start_new_round
  rw [if_neg h2]
  simp only [hrn, hg]
  rw [if_neg hmax]
  refine ⟨rfl, rfl, rfl, rfl, ?_⟩
  rw [List.filter_append]
  rw [transition_to_no_round_end]
  simp

/-- Any word drawn while an exclusion is in force has a different text,
provided the selection picks from its candidate list. -/
lemma get_random_word_excludes (choose : List Word → Option Word)
    (hchoose : ∀ l x, choose l = some x → x ∈ l)
    (words : List Word) (ex w2 : Word)
    (hg : get_random_word choose words (some ex) = some w2) :
    ¬ w2.text = ex.text := by
  unfold get_random_word at hg
  split at hg
  · exact absurd hg (by simp)
  · simp only [] at hg
    split at hg
    · exact absurd hg (by simp)
    · have hmem := hchoose _ _ hg
      have h2 := List.of_mem_filter hmem
      simpa using h2

/-- The word draw succeeds whenever the candidate list left after the
exclusion is non-empty. -/
lemma get_random_word_some (choose : List Word → Option Word)
    (hchoose : ∀ l, l ≠ [] → (choose l).isSome)
    (words : List Word) (ex : Option Word)
    (havail : (match ex with
      | some w => words.filter (fun x => decide (¬ x.text = w.text))
      | none => words) ≠ []) :
    (get_random_word choose words ex).isSome := by
  have hwords : ¬ words.isEmpty = true := by
    cases ex with
    | none => simpa [List.isEmpty_iff] using havail
    | some w =>
      intro hempty
      rw [List.isEmpty_iff] at hempty
      subst hempty
      simp at havail
  unfold get_random_word
  rw [if_neg hwords]
  cases ex with
  | none =>
    simp only []
    rw [if_neg (by simpa [List.isEmpty_iff] using havail)]
    exact hchoose _ (by simpa using havail)
  | some w =>
    simp only []
    rw [if_neg (by simpa [List.isEmpty_iff] using havail)]
    exact hchoose _ (by simpa using havail)

/-- chooseFirst picks a member of its candidate list. -/
lemma chooseFirst_mem : ∀ (l : List Word) (x : Word),
    chooseFirst l = some x → x ∈ l := by
  intro l x h
  cases l with
  | nil => cases h
  | cons a t =>
    simp only [chooseFirst, List.head?_cons, Option.some.injEq] at h
    simp [← h]

/-- chooseFirst yields a word on every non-empty list. -/
lemma chooseFirst_isSome : ∀ l : List Word, l ≠ [] → (chooseFirst l).isSome := by
  intro l h
  cases l with
  | nil => exact absurd rfl h
  | cons a t => simp [chooseFirst]

/-- C4 amended: the word exclusion reads the round object still stored in
current_round at call time; whenever a round with a word is current when
start_new_round succeeds (the replace-active-round path), the newly drawn
word's text differs from that round's word's text, for any selection
function that picks from its candidate list.  After end_current_round the
pointer is cleared and no exclusion is applied (the counterexample). -/
theorem C4_word_exclusion_amended (max_rounds tl : Nat)
    (choose : List Word → Option Word)
    (hchoose : ∀ l x, choose l = some x → x ∈ l)
    (now : Rat) (st : RoundManagerState) (r : RoundInfo) (w : Word)
    (hcur : st.current_round = some r) (hw : r.current_word = some w)
    (rn? : Option Nat)
    (hsucc : (start_new_round max_rounds tl choose now st rn?).1 = true) :
    ∀ info w2,
      (start_new_round max_rounds tl choose now st rn?).2.1.current_round = some info →
      info.current_word = some w2 → w2.text ≠ w.text := by
  intro info w2 hinfo hw2
  have hresolve : ∃ rn, (match rn? with
      | some n => n
      | none => st.round_history.length + 1) = rn := ⟨_, rfl⟩
  obtain ⟨rn, hrn⟩ := hresolve
  by_cases hlen : st.players.length < 2
  · rw [start_new_round_fail_players max_rounds tl choose now st rn? hlen] at hsucc
    exact absurd hsucc (by simp)
  · by_cases hmax : rn > max_rounds
    · rw [start_new_round_fail_max max_rounds tl choose now st rn? rn hrn hlen hmax]
        at hsucc
      exact absurd hsucc (by simp)
    · cases hg : get_random_word choose st.words
        (match st.current_round with
          | some r0 => r0.current_word
          | none => none) with
      | none =>
        rw [start_new_round_fail_word max_rounds tl choose now st rn? rn hrn hlen
          hmax hg] at hsucc
        exact absurd hsucc (by simp)
      | some wNew =>
        have hk := start_new_round_eq max_rounds tl choose now st rn? rn wNew hrn
          hlen hmax hg
        rw [hk.2.2.2.1] at hinfo
        have hrec := Option.some.inj hinfo
        have hcw : info.current_word = some wNew := by rw [← hrec]
        rw [hcw] at hw2
        cases hw2
        simp only [hcur, hw] at hg
        exact get_random_word_excludes choose hchoose st.words w w2 hg

/-- Witness for the amended C4: replacing the active "apple" round draws
"banana", whose text differs from "apple". -/
theorem C4_word_exclusion_amended_witness :
    (stActive.current_round = some activeRound ∧
      activeRound.current_word = some wApple ∧
      (start_new_round MAX_ROUNDS DRAWING_TIME_LIMIT chooseFirst 5 stActive
        (some 2)).1 = true) ∧
    wBanana.text ≠ wApple.text := by
  refine ⟨⟨rfl, rfl, by decide⟩, ?_⟩
  exact C4_word_exclusion_amended MAX_ROUNDS DRAWING_TIME_LIMIT chooseFirst
    chooseFirst_mem 5 stActive activeRound wApple rfl rfl (some 2) (by decide)
    infoRound2 wBanana (by decide) (by decide)

/-- C10 counterexample: with an active round whose word is the only word in
the (non-empty) bank, a further start_new_round with 2 players and a valid
round number fails instead of succeeding, because the exclusion empties the
candidate list. -/
theorem C10_replace_counterexample :
    stActiveOneWord.current_round = some activeRound ∧
    activeRound.is_active = true ∧
    2 ≤ stActiveOneWord.players.length ∧
    stActiveOneWord.words ≠ [] ∧
    (2 : Nat) ≤ MAX_ROUNDS ∧
    start_new_round MAX_ROUNDS DRAWING_TIME_LIMIT chooseFirst 5 stActiveOneWord
      (some 2) = (false, stActiveOneWord, []) := by
  refine ⟨rfl, rfl, by decide, by decide, by decide, by decide⟩

/-- C10 amended: calling start_new_round over an active round succeeds —
provided the bank still contains a word admissible after excluding the
active round's word — and replaces the active RoundInfo wholesale: the old
round is not appended to the history, no ROUND_END is published, and the
new round is installed fresh (given round number, active, no guessers). -/
theorem C10_replace_active_round (mr tl : Nat) (choose : List Word → Option Word)
    (hchoose : ∀ l, l ≠ [] → (choose l).isSome)
    (now : Rat) (st : RoundManagerState) (r : RoundInfo) (rn? : Option Nat)
    (rn : Nat)
    (hcur : st.current_round = some r) (_hact : r.is_active = true)
    (hlen : 2 ≤ st.players.length)
    (hrn : (match rn? with
      | some n => n
      | none => st.round_history.length + 1) = rn)
    (hmax : rn ≤ mr)
    (havail : (match r.current_word with
      | some w => st.words.filter (fun x => decide (¬ x.text = w.text))
      | none => st.words) ≠ []) :
    (start_new_round mr tl choose now st rn?).1 = true ∧
    (start_new_round mr tl choose now st rn?).2.1.round_history =
      st.round_history ∧
    ((start_new_round mr tl choose now st rn?).2.1.current_round.map
      (fun info => (info.round_number, info.is_active, info.correct_guesses))) =
      some (rn, true, []) ∧
    ((start_new_round mr tl choose now st rn?).2.2.filter
      (fun ev => ev.event_type = EventType.round_end)) = [] := by
  have hsome : (get_random_word choose st.words
      (match st.current_round with
        | some r0 => r0.current_word
        | none => none)).isSome := by
    simp only [hcur]
    exact get_random_word_some choose hchoose st.words r.current_word havail
  obtain ⟨wNew, hg⟩ := Option.isSome_iff_exists.mp hsome
  have hk := start_new_round_eq mr tl choose now st rn? rn wNew hrn (by omega)
    (by omega) hg
  refine ⟨hk.1, hk.2.1, ?_, hk.2.2.2.2⟩
  rw [hk.2.2.2.1]
  rfl

/-- Witness for the amended C10: replacing the active "apple" round with
round 2 succeeds, keeps the history empty, installs a fresh active round 2
and publishes no ROUND_END. -/
theorem C10_replace_active_round_witness :
    (stActive.current_round = some activeRound ∧
      activeRound.is_active = true ∧
      2 ≤ stActive.players.length ∧
      (2 : Nat) ≤ MAX_ROUNDS ∧
      (match activeRound.current_word with
        | some w => stActive.words.filter (fun x => decide (¬ x.text = w.text))
        | none => stActive.words) ≠ []) ∧
    (start_new_round MAX_ROUNDS DRAWING_TIME_LIMIT chooseFirst 5 stActive
      (some 2)).1 = true ∧
    (start_new_round MAX_ROUNDS DRAWING_TIME_LIMIT chooseFirst 5 stActive
      (some 2)).2.1.round_history = stActive.round_history ∧
    ((start_new_round MAX_ROUNDS DRAWING_TIME_LIMIT chooseFirst 5 stActive
      (some 2)).2.1.current_round.map
      (fun info => (info.round_number, info.is_active, info.correct_guesses))) =
      some (2, true, []) ∧
    ((start_new_round MAX_ROUNDS DRAWING_TIME_LIMIT chooseFirst 5 stActive
      (some 2)).2.2.filter
      (fun ev => ev.event_type = EventType.round_end)) = [] := by
  refine ⟨⟨rfl, rfl, by decide, by decide, ?_⟩, ?_⟩
  · show ([wApple, wBanana].filter (fun x => decide (¬ x.text = wApple.text))) ≠ []
    decide
  · exact C10_replace_active_round MAX_ROUNDS DRAWING_TIME_LIMIT chooseFirst
      chooseFirst_isSome 5 stActive activeRound (some 2) 2 rfl rfl (by decide)
      rfl (by decide)
      (by show ([wApple, wBanana].filter
            (fun x => decide (¬ x.text = wApple.text))) ≠ []
          decide)

/-- Mapping a function of the element over an enumerated list forgets the
indices. -/
lemma enum_map_of_snd {α β : Type} (l : List α) (g : α → β) :
    l.enum.map (fun ie => g ie.2) = l.map g := by
  have h : l.enum.map (fun ie => g ie.2) = (l.enum.map Prod.snd).map g := by
    rw [List.map_map]
    rfl
  rw [h, List.enum_map_snd]

/-- The 1-based positions of an enumerated list. -/
lemma enum_map_fst_succ {α : Type} (l : List α) :
    l.enum.map (fun ie => ie.1 + 1) = List.range' 1 l.length := by
  apply List.ext_getElem
  · simp
  · intro i h1 h2
    simp only [List.getElem_map, List.getElem_enum, List.getElem_range']
    omega

/-- Entries built by mkLeaderboardEntry carry rank 0, so stripping the rank
is the identity on them. -/
lemma stripRank_of_mem_entries (st : ScoringSystemState) (gd : Option GameData)
    (ids : List String) (a : LeaderboardEntry)
    (ha : a ∈ ids.map (mkLeaderboardEntry st gd)) : stripRank a = a := by
  rcases List.mem_map.mp ha with ⟨pid, _, rfl⟩
  rfl

/-- C9: get_leaderboard returns, for exactly the ids in the union of the
ledger keys and the roster (each once), the entry built from the ledger and
stats (modulo the assigned rank), sorted descending by total score, with
ties kept in the iteration order (stability), and with 1-based consecutive
ranks in sorted order. -/
theorem C9_leaderboard (st : ScoringSystemState) (gd : Option GameData)
    (ids_iter : List String)
    (h1 : ids_iter.Nodup)
    (h2 : ∀ pid ∈ ids_iter, pid ∈ unionIds st gd)
    (h3 : ∀ pid ∈ unionIds st gd, pid ∈ ids_iter) :
    ((get_leaderboard st gd ids_iter).map stripRank).Perm
      (ids_iter.map (mkLeaderboardEntry st gd)) ∧
    ((get_leaderboard st gd ids_iter).map (fun e => e.player_id)).Perm ids_iter ∧
    (∀ pid, pid ∈ unionIds st gd ↔
      pid ∈ (get_leaderboard st gd ids_iter).map (fun e => e.player_id)) ∧
    ((get_leaderboard st gd ids_iter).map (fun e => e.player_id)).Nodup ∧
    (get_leaderboard st gd ids_iter).Pairwise
      (fun a b => b.total_score ≤ a.total_score) ∧
    (∀ a b, [a, b].Sublist (ids_iter.map (mkLeaderboardEntry st gd)) →
      a.total_score = b.total_score →
      [a, b].Sublist ((get_leaderboard st gd ids_iter).map stripRank)) ∧
    ((get_leaderboard st gd ids_iter).map (fun e => e.rank) =
      List.range' 1 (get_leaderboard st gd ids_iter).length) := by
  have htrans : ∀ a b c : LeaderboardEntry,
      (decide (b.total_score ≤ a.total_score)) = true →
      (decide (c.total_score ≤ b.total_score)) = true →
      (decide (c.total_score ≤ a.total_score)) = true := by
    intro a b c hab hbc
    simp only [decide_eq_true_eq] at *
    omega
  have htotal : ∀ a b : LeaderboardEntry,
      ((decide (b.total_score ≤ a.total_score)) ||
        (decide (a.total_score ≤ b.total_score))) = true := by
    intro a b
    simp only [Bool.or_eq_true, decide_eq_true_eq]
    omega
  have hout : get_leaderboard st gd ids_iter =
      ((ids_iter.map (mkLeaderboardEntry st gd)).mergeSort
        (fun a b => decide (b.total_score ≤ a.total_score))).enum.map
        (fun ie => { ie.2 with rank := ie.1 + 1 }) := rfl
  have hA : (get_leaderboard st gd ids_iter).map stripRank =
      ((ids_iter.map (mkLeaderboardEntry st gd)).mergeSort
        (fun a b => decide (b.total_score ≤ a.total_score))).map stripRank := by
    rw [hout, List.map_map]
    exact enum_map_of_snd _ stripRank
  have hC : ((ids_iter.map (mkLeaderboardEntry st gd)).map stripRank) =
      ids_iter.map (mkLeaderboardEntry st gd) := by
    rw [List.map_map]
    apply List.map_congr_left
    intro pid _
    rfl
  have hPermA : ((get_leaderboard st gd ids_iter).map stripRank).Perm
      (ids_iter.map (mkLeaderboardEntry st gd)) := by
    rw [hA]
    have hp := (List.mergeSort_perm (ids_iter.map (mkLeaderboardEntry st gd))
      (fun a b => decide (b.total_score ≤ a.total_score))).map stripRank
    rw [hC] at hp
    exact hp
  have hid_strip : (get_leaderboard st gd ids_iter).map (fun e => e.player_id) =
      ((get_leaderboard st gd ids_iter).map stripRank).map (fun e => e.player_id) := by
    rw [List.map_map]
    apply List.map_congr_left
    intro a _
    rfl
  have hid_entries : ((ids_iter.map (mkLeaderboardEntry st gd)).map
      (fun e => e.player_id)) = ids_iter := by
    rw [List.map_map]
    have : ((fun e : LeaderboardEntry => e.player_id) ∘ mkLeaderboardEntry st gd) =
        id := by
      funext pid
      rfl
    rw [this, List.map_id]
  have hPermB : ((get_leaderboard st gd ids_iter).map
      (fun e => e.player_id)).Perm ids_iter := by
    rw [hid_strip]
    have hp := hPermA.map (fun e => e.player_id)
    rw [hid_entries] at hp
    exact hp
  refine ⟨hPermA, hPermB, ?_, ?_, ?_, ?_, ?_⟩
  · intro pid
    constructor
    · intro hm
      exact hPermB.mem_iff.mpr (h3 pid hm)
    · intro hm
      exact h2 pid (hPermB.mem_iff.mp hm)
  · exact hPermB.nodup_iff.mpr h1
  · have hpw0 := List.sorted_mergeSort htrans htotal
      (ids_iter.map (mkLeaderboardEntry st gd))
    have hpw1 : ((ids_iter.map (mkLeaderboardEntry st gd)).mergeSort
        (fun a b => decide (b.total_score ≤ a.total_score))).Pairwise
        (fun a b : LeaderboardEntry => b.total_score ≤ a.total_score) := by
      exact hpw0.imp (fun h => by simpa using h)
    have henum := (List.pairwise_map
      (f := Prod.snd)
      (R := fun a b : LeaderboardEntry => b.total_score ≤ a.total_score)
      (l := ((ids_iter.map (mkLeaderboardEntry st gd)).mergeSort
        (fun a b => decide (b.total_score ≤ a.total_score))).enum)).mp
      (by rw [List.enum_map_snd]; exact hpw1)
    rw [hout, List.pairwise_map]
    exact henum.imp (fun h => h)
  · intro a b hsub heq
    have hab : List.Pairwise
        (fun x y : LeaderboardEntry =>
          (decide (y.total_score ≤ x.total_score)) = true) [a, b] := by
      simp [heq]
    have hs2 := List.sublist_mergeSort htrans htotal hab hsub
    have hs3 := hs2.map stripRank
    have ha := stripRank_of_mem_entries st gd ids_iter a (hsub.subset (by simp))
    have hb := stripRank_of_mem_entries st gd ids_iter b (hsub.subset (by simp))
    rw [← hA] at hs3
    simpa [ha, hb] using hs3
  · rw [hout, List.map_map]
    have h5 : ((fun e : LeaderboardEntry => e.rank) ∘
        (fun ie : Nat × LeaderboardEntry => { ie.2 with rank := ie.1 + 1 })) =
        (fun ie : Nat × LeaderboardEntry => ie.1 + 1) := by
      funext ie
      rfl
    rw [h5, enum_map_fst_succ]
    congr 1
    simp

/-- Witness for C9: with Alice and Bob tied at 40 in the ledger and Carol
only on the roster, the leaderboard lists exactly the three ids, sorted
descending, keeps the tied pair in iteration order, and ranks 1..3. -/
theorem C9_leaderboard_witness :
    (idsFix.Nodup ∧
      (∀ pid ∈ idsFix, pid ∈ unionIds stLedger (some gdRoster)) ∧
      (∀ pid ∈ unionIds stLedger (some gdRoster), pid ∈ idsFix)) ∧
    ((get_leaderboard stLedger (some gdRoster) idsFix).map stripRank).Perm
      (idsFix.map (mkLeaderboardEntry stLedger (some gdRoster))) ∧
    ((get_leaderboard stLedger (some gdRoster) idsFix).map
      (fun e => e.player_id)).Perm idsFix ∧
    ((get_leaderboard stLedger (some gdRoster) idsFix).map
      (fun e => e.player_id)).Nodup ∧
    (get_leaderboard stLedger (some gdRoster) idsFix).Pairwise
      (fun a b => b.total_score ≤ a.total_score) ∧
    ("p3" ∈ unionIds stLedger (some gdRoster) ↔
      "p3" ∈ (get_leaderboard stLedger (some gdRoster) idsFix).map
        (fun e => e.player_id)) ∧
    [mkLeaderboardEntry stLedger (some gdRoster) "p2",
      mkLeaderboardEntry stLedger (some gdRoster) "p1"].Sublist
      ((get_leaderboard stLedger (some gdRoster) idsFix).map stripRank) ∧
    ((get_leaderboard stLedger (some gdRoster) idsFix).map (fun e => e.rank) =
      List.range' 1 (get_leaderboard stLedger (some gdRoster) idsFix).length) := by
  have h := C9_leaderboard stLedger (some gdRoster) idsFix (by decide) (by decide)
    (by decide)
  exact ⟨⟨by decide, by decide, by decide⟩, h.1, h.2.1, h.2.2.2.1, h.2.2.2.2.1,
    h.2.2.1 "p3", h.2.2.2.2.2.1 _ _ (by decide) (by decide), h.2.2.2.2.2.2⟩

/-- Witness for the amended C5 at a concrete half-second guess. -/
theorem C5_guesser_score_amended_witness :
    calculate_guesser_score (1 / 2) 60 =
      30 + max 0 (pyInt (((60 : Rat) - 1 / 2) * 1)) +
        (if (1 / 2 : Rat) ≤ (60 : Rat) * (33 / 100) then 10 else 0) :=
  C5_guesser_score_amended (1 / 2) 60

/-- Witness for C6 on a concrete operation sequence. -/
theorem C6_ledger_sum_invariant_witness :
    get_player_score (runScoringOps
      [ScoringOp.addScore pA 30 1 "guesser", ScoringOp.addScore pB 20 1 "drawer",
        ScoringOp.addScore pA 12 2 "guesser"]) "p1" =
      recordSum (runScoringOps
        [ScoringOp.addScore pA 30 1 "guesser", ScoringOp.addScore pB 20 1 "drawer",
          ScoringOp.addScore pA 12 2 "guesser"]).score_records "p1" :=
  C6_ledger_sum_invariant
    [ScoringOp.addScore pA 30 1 "guesser", ScoringOp.addScore pB 20 1 "drawer",
      ScoringOp.addScore pA 12 2 "guesser"] "p1"

/-- Witness for C8: on a bus where handler 1 raises, handler 2 (higher
priority) and the one-shot handler 3 are still invoked, one-shot
registrations are cleared, durable ones kept. -/
theorem C8_publish_delivery_witness :
    (publish raisesHid1 busFix evFix).2.1 =
      sortByPriorityDesc ((dictFind busFix.listeners evFix.event_type).getD []) ++
        (dictFind busFix.one_time_listeners evFix.event_type).getD [] ∧
    (dictFind (publish raisesHid1 busFix evFix).1.one_time_listeners
      evFix.event_type).getD [] = [] ∧
    (publish raisesHid1 busFix evFix).1.listeners = busFix.listeners ∧
    Handler.mk 2 5 ∈ (publish raisesHid1 busFix evFix).2.1 :=
  ⟨(C8_publish_delivery busFix evFix raisesHid1).1,
    (C8_publish_delivery busFix evFix raisesHid1).2.2.2.1,
    (C8_publish_delivery busFix evFix raisesHid1).2.2.2.2.1,
    (C8_publish_delivery busFix evFix raisesHid1).2.1 (Handler.mk 2 5) (by decide)⟩

end DrawGuess
